import Mathlib

/-!
Verification of the gclient dependency-resolution and sync engine
(`trunk/gclient/gclient.py`).  The Python functions are shallowly embedded:
strings are Lean `String`, Python dicts are insertion-ordered association
lists, the filesystem / subversion backend is an explicit `Env` record, and
the `svn` invocations issued by `RunSVN` are collected in a trace.
-/

namespace Gclient

/-! ### Python string primitives

The source manipulates URLs with `str.split`, `str.replace`, `str.find`,
`urlparse.urlparse` and `" ".join`.  They are modelled here on `List Char`
so that every definition reduces in the kernel. -/

/-- Python `s.split(sep)` for a single-character separator, on char lists.
`"".split(c) == [""]` and separators at the ends produce empty fields. -/
def splitChar (sep : Char) : List Char → List (List Char)
  | [] => [[]]
  | c :: rest =>
    match splitChar sep rest with
    | [] => [[]]
    | h :: t => if c = sep then [] :: h :: t else (c :: h) :: t

/-- Python `s.split(sep)` on strings (single-character separator). -/
def pySplit (s : String) (sep : Char) : List String :=
  (splitChar sep s.toList).map String.mk

/-- Python `sep.join(xs)`. -/
def joinWith (sep : String) : List String → String
  | [] => ""
  | [x] => x
  | x :: xs => x ++ sep ++ joinWith sep xs

/-- Replacement core for Python `s.replace(old, new)` with a nonempty
`pat`: replace every non-overlapping occurrence, left to right.  The fuel
starts at the list's length; since each step consumes at least one
character while spending one unit of fuel, the fuel outlasts the list and
the `0` case only ever sees `[]`. -/
def replaceCore (pat new : List Char) : Nat → List Char → List Char
  | 0, l => l
  | fuel + 1, l =>
    match l with
    | [] => []
    | c :: rest =>
      if pat.isPrefixOf l then
        new ++ replaceCore pat new fuel (l.drop pat.length)
      else
        c :: replaceCore pat new fuel rest

/-- Python `s.replace(old, new)`.  The one call site
(`from_url.replace(from_repository_root, to_repository_root)`) is guarded by
a truthiness check on `from_repository_root`, so `old` is nonempty there;
an empty `old` is returned unchanged. -/
def pyReplace (s old new : String) : String :=
  match old.toList with
  | [] => s
  | pat => String.mk (replaceCore pat new.toList s.toList.length s.toList)

/-- Byte-order comparison of two char lists, `a <= b` as Python compares
(byte) strings.  UTF-8 preserves codepoint order, so comparing codepoints
agrees with Python's byte comparison. -/
def charListLe : List Char → List Char → Bool
  | [], _ => true
  | _ :: _, [] => false
  | a :: as, b :: bs =>
    if a.toNat = b.toNat then charListLe as bs
    else decide (a.toNat < b.toNat)

/-- Python string `a <= b`. -/
def pyStrLe (a b : String) : Bool :=
  charListLe a.toList b.toList

/-- Insertion step of `pySort`. -/
def orderedInsertPy (x : String) : List String → List String
  | [] => [x]
  | y :: ys => if pyStrLe x y then x :: y :: ys else y :: orderedInsertPy x ys

/-- Python `list.sort()` on strings: the unique nondecreasing arrangement
in byte order (computed by insertion sort). -/
def pySort : List String → List String
  | [] => []
  | x :: xs => orderedInsertPy x (pySort xs)

/-- Whether a string starts with the given character. -/
def strStartsWithChar (s : String) (c : Char) : Bool :=
  match s.toList with
  | [] => false
  | h :: _ => h = c

/-- Whether a string ends with the given character. -/
def strEndsWithChar (s : String) (c : Char) : Bool :=
  match s.toList.getLast? with
  | none => false
  | some h => h = c

/-- POSIX `os.path.join(a, b)`. -/
def pathJoin (a b : String) : String :=
  if strStartsWithChar b '/' then b
  else if a = "" || strEndsWithChar a '/' then a ++ b
  else a ++ "/" ++ b

/-- POSIX `os.path.join(a, b, c)`. -/
def pathJoin3 (a b c : String) : String :=
  pathJoin (pathJoin a b) c

/-! ### `urlparse.urlparse`, scheme and path components

Model of Python 2.5 `urlparse.urlsplit` / `urlparse` restricted to the two
components the source reads: `parsed[0]` (scheme) and `parsed[2]` (path). -/

/-- Characters allowed in a URL scheme (`urlparse.scheme_chars`). -/
def schemeChars : List Char :=
  "abcdefghijklmnopqrstuvwxyzABCDEFGHIJKLMNOPQRSTUVWXYZ0123456789+-.".toList

/-- Index of the last occurrence of a character, Python `s.rfind(c)`. -/
def rfindChar (l : List Char) (c : Char) : Option Nat :=
  (l.reverse.findIdx? (· = c)).map (fun k => l.length - 1 - k)

/-- Python `urlparse._splitparams`: drop a `;params` suffix from the last
path segment.  Callers guarantee `';' ∈ l`. -/
def splitParams (l : List Char) : List Char :=
  if l.contains '/' then
    let j := (rfindChar l '/').getD 0
    match (l.drop j).findIdx? (· = ';') with
    | some k => l.take (j + k)
    | none => l
  else
    match l.findIdx? (· = ';') with
    | some i => l.take i
    | none => l

/-- The `(scheme, path)` components of Python `urlparse.urlparse(url)`:
scheme split at the first `':'` when the prefix is made of scheme
characters, then netloc after `"//"`, then fragment, query and params are
stripped from the remainder.  Python strips `;params` only for schemes in
`uses_params`; this model strips them whenever `';'` occurs, which agrees
with Python on every observable input because the caller reads the path
component only for scheme-less URLs, and the empty scheme is in
`uses_params`. -/
def pyUrlparse (url : String) : String × String :=
  let l := url.toList
  let (scheme, rest) :=
    match l.findIdx? (· = ':') with
    | some i =>
      if 0 < i && (l.take i).all (fun c => schemeChars.contains c) then
        (String.mk ((l.take i).map Char.toLower), l.drop (i + 1))
      else ("", l)
    | none => ("", l)
  let rest :=
    match rest with
    | '/' :: '/' :: tail =>
      let j := ((tail.findIdx? (fun c => c = '/' || c = '?' || c = '#')).getD tail.length)
      tail.drop j
    | _ => rest
  let rest :=
    match rest.findIdx? (· = '#') with
    | some k => rest.take k
    | none => rest
  let rest :=
    match rest.findIdx? (· = '?') with
    | some k => rest.take k
    | none => rest
  let path := if rest.contains ';' then splitParams rest else rest
  (scheme, String.mk path)

/-! ### Python dicts

Insertion-ordered association lists.  Iteration order of a Python dict is
unspecified; every property proved below is insensitive to it (per-solution
dependency processing is driven through `keys()` and the sync passes sort
the keys first). -/

/-- A Python dict with string keys. -/
abbrev Dict (α : Type) := List (String × α)

/-- Python `d[k]` / `d.get(k)` as an option. -/
def dictGet {α : Type} (d : Dict α) (k : String) : Option α :=
  (d.find? (fun p => p.1 = k)).map (fun p => p.2)

/-- Python `k in d`. -/
def dictMem {α : Type} (d : Dict α) (k : String) : Bool :=
  (d.find? (fun p => p.1 = k)).isSome

/-- Python `d[k] = v`: replace in place if present, else append. -/
def dictSet {α : Type} (d : Dict α) (k : String) (v : α) : Dict α :=
  if dictMem d k then d.map (fun p => if p.1 = k then (k, v) else p)
  else d ++ [(k, v)]

/-- Python `d.update(other)`. -/
def dictUpdate {α : Type} (d other : Dict α) : Dict α :=
  other.foldl (fun acc p => dictSet acc p.1 p.2) d

/-- Python `d.keys()` (in the list's order). -/
def dictKeys {α : Type} (d : Dict α) : List String :=
  d.map (fun p => p.1)

/-! ### Data model

A DEPS value is either a URL string or a `From("module")` indirection
(`FromImpl` in the source, distinguished by a runtime type check). -/

/-- A value bound in a `deps` mapping: a plain URL string or a `From`
indirection created by `FromImpl`. -/
inductive DepValue : Type where
  | str (url : String)
  | fromModule (module_name : String)
deriving DecidableEq

instance : Inhabited DepValue := ⟨.str ""⟩

/-- Python `!=` on two dep values.  Strings compare by content; `FromImpl`
has no `__eq__`, so two distinct `From` objects always compare unequal, as
do values of different runtime types. -/
def pyNeqDep : DepValue → DepValue → Bool
  | .str a, .str b => a != b
  | _, _ => true

/-- Python `!=` between a `solution_urls` entry (a URL string, or `None`
for an orphan tombstone) and a dep value. -/
def pyNeqOptDep : Option DepValue → DepValue → Bool
  | some (.str a), .str b => a != b
  | _, _ => true

/-- One element of the `solutions` list of a `.gclient` file.  The
`custom_deps` key may be absent (`none`); its values may be Python `None`
(the inner `none`), meaning "exclude this dependency". -/
structure Solution : Type where
  name : String
  url : String
  custom_deps : Option (Dict (Option DepValue))

/-- The loaded client: the `.gclient` contents plus the recorded
`root_dir`. -/
structure Client : Type where
  root_dir : String
  solutions : List Solution

/-- The scope produced by executing a DEPS file: its `deps` binding (absent
when the script does not assign `deps`) and its `deps_os` binding (seeded
with `{}`). -/
structure DepsScope : Type where
  deps : Option (Dict DepValue)
  deps_os : Dict (Dict DepValue)

/-- The `Options` object produced by the command line parser. -/
structure Options : Type where
  verbose : Bool
  force : Bool
  relocate : Bool
  revision : Option String

/-- One `svn` invocation issued through `RunSVN`: the arguments after the
`svn` executable and the directory it runs in. -/
structure SvnCall : Type where
  args : List String
  dir : String
deriving DecidableEq

/-- A raised Python exception: the gclient `Error` class carrying a
message, or a built-in exception escaping from the code. -/
inductive PyErr : Type where
  | gclientError (message : String)
  | keyError (key : String)
  | indexError
  | typeError
  | attributeError
deriving DecidableEq

/-- The external world as seen by the engine: the host platform string,
the result of executing each DEPS file (`none` models `EnvironmentError`),
the fields reported by `svn info` for a path or URL, file existence, the
exit code of each spawned `svn` command, and the previously recorded
`.gclient_entries` list. -/
structure Env : Type where
  platform : String
  depsScopes : String → Option DepsScope
  svnInfo : String → Dict String
  pathExists : String → Bool
  call : List String → String → Int
  prevEntries : List String

/-! ### `GetDefaultSolutionDeps` -/

/-- The platform canonicalization table in `GetDefaultSolutionDeps`. -/
def depsOsKeyTable : Dict String :=
  [("win32", "win"), ("win", "win"), ("darwin", "mac"), ("mac", "mac"),
   ("unix", "unix")]

/-- `GetDefaultSolutionDeps(client, solution_name)`: execute the solution's
DEPS file (a missing file yields `{}` after a warning), then overlay the
`deps_os` mapping selected by the canonicalized platform over `deps`. -/
def GetDefaultSolutionDeps (env : Env) (client : Client)
    (solution_name : String) : Dict DepValue :=
  let deps_file := pathJoin3 client.root_dir solution_name "DEPS"
  match env.depsScopes deps_file with
  | none => []
  | some scope =>
    let deps := scope.deps.getD []
    let deps_os_key := (dictGet depsOsKeyTable env.platform).getD "unix"
    dictUpdate deps ((dictGet scope.deps_os deps_os_key).getD [])

/-! ### `GetAllDeps` -/

/-- The `else` branch of the per-dependency loop of `GetAllDeps`: normalize
a value taken from the DEPS file itself.  A `From` naming a solution is
skipped (`.ok none` models `continue`), as is a `From` repeating an
already-recorded `From` of the same module; a URL without a scheme must
start with a slash and is expanded with the owning solution's repository
root from `svn info`. -/
def defaultDepValue (env : Env) (solution_url : String)
    (solution_urls : Dict (Option DepValue)) (deps : Dict DepValue)
    (d : String) (url : DepValue) : Except PyErr (Option DepValue) :=
  match url with
  | .fromModule m =>
    if dictMem solution_urls m then .ok none
    else if (match dictGet deps d with
             | some (.fromModule m2) => m == m2
             | _ => false) then .ok none
    else .ok (some url)
  | .str u =>
    let parsed := pyUrlparse u
    if parsed.1 = "" then
      match parsed.2.toList with
      | [] => .error .indexError
      | p0 :: _ =>
        if p0 ≠ '/' then
          .error (.gclientError
            ("relative DEPS entry \"" ++ d ++ "\" must begin with a slash"))
        else
          match dictGet (env.svnInfo solution_url) "Repository Root" with
          | none => .error (.keyError "Repository Root")
          | some root => .ok (some (.str (root ++ u)))
    else .ok (some url)

/-- The value `GetAllDeps` chooses for key `d` of one solution: a non-`None`
`custom_deps` binding is used verbatim, a `None` binding excludes the key
(`.ok none`), and otherwise the DEPS value passes through
`defaultDepValue`. -/
def getAllDepsValue (env : Env) (solution : Solution)
    (solution_urls : Dict (Option DepValue)) (deps : Dict DepValue)
    (solution_deps : Dict DepValue) (d : String) :
    Except PyErr (Option DepValue) :=
  match solution.custom_deps with
  | some cd =>
    if dictMem cd d then
      match (dictGet cd d).getD none with
      | none => .ok none
      | some u => .ok (some u)
    else
      defaultDepValue env solution.url solution_urls deps d
        ((dictGet solution_deps d).getD default)
  | none =>
    defaultDepValue env solution.url solution_urls deps d
      ((dictGet solution_deps d).getD default)

/-- The per-dependency loop of `GetAllDeps` for one solution: for each key
of its (merged) DEPS dict, compute the value, then fail on a conflict with
an already-aggregated dependency or with a declared solution, else record
it. -/
def getAllDepsLoop (env : Env) (solution : Solution)
    (solution_urls : Dict (Option DepValue)) (solution_deps : Dict DepValue) :
    List String → Dict DepValue → Except PyErr (Dict DepValue)
  | [], deps => .ok deps
  | d :: rest, deps =>
    match getAllDepsValue env solution solution_urls deps solution_deps d with
    | .error e => .error e
    | .ok none => getAllDepsLoop env solution solution_urls solution_deps rest deps
    | .ok (some url) =>
      if dictMem deps d && pyNeqDep ((dictGet deps d).getD default) url then
        .error (.gclientError
          ("solutions have conflicting versions of dependency \"" ++ d ++ "\""))
      else if dictMem solution_urls d &&
          pyNeqOptDep ((dictGet solution_urls d).getD none) url then
        .error (.gclientError
          ("dependency \"" ++ d ++ "\" conflicts with specified solution"))
      else
        getAllDepsLoop env solution solution_urls solution_deps rest
          (dictSet deps d url)

/-- The outer loop of `GetAllDeps` over the client's solutions. -/
def getAllDepsSolutions (env : Env) (client : Client)
    (solution_urls : Dict (Option DepValue)) :
    List Solution → Dict DepValue → Except PyErr (Dict DepValue)
  | [], deps => .ok deps
  | s :: rest, deps =>
    let solution_deps := GetDefaultSolutionDeps env client s.name
    match getAllDepsLoop env s solution_urls solution_deps
        (dictKeys solution_deps) deps with
    | .error e => .error e
    | .ok deps => getAllDepsSolutions env client solution_urls rest deps

/-- `GetAllDeps(client, solution_urls)`: the aggregated dependency map of
all solutions, or the first raised error. -/
def GetAllDeps (env : Env) (client : Client)
    (solution_urls : Dict (Option DepValue)) : Except PyErr (Dict DepValue) :=
  getAllDepsSolutions env client solution_urls client.solutions []

/-! ### `RunSVN` and `UpdateToURL` -/

/-- `RunSVN(args, in_directory)`: spawn `svn` with the given arguments,
record the invocation, and raise `Error("failed to run command: ...")` on a
nonzero exit code (otherwise return the zero code). -/
def RunSVN (env : Env) (args : List String) (in_directory : String) :
    Except PyErr Int × List SvnCall :=
  if env.call ("svn" :: args) in_directory ≠ 0 then
    (.error (.gclientError
      ("failed to run command: " ++ joinWith " " ("svn" :: args))),
     [⟨args, in_directory⟩])
  else
    (.ok (env.call ("svn" :: args) in_directory), [⟨args, in_directory⟩])

/-- The relocation decision of `UpdateToURL`, entered when the target URL
(revision stripped) differs from the working copy's URL.  `.ok none`
models the early `return` of the two skip paths (UUID mismatch, missing
`--relocate`); `.ok (some fu)` continues with the (possibly textually
relocated) working-copy URL. -/
def updateRelocate (env : Env) (from_info : Dict String)
    (comps : List String) (from_url0 svnurl relpath root_dir : String)
    (options : Options) : Except PyErr (Option String) × List SvnCall :=
  if comps.headD "" ≠ from_url0 then
    match dictGet from_info "Repository Root" with
    | some from_root =>
      if from_root ≠ "" ∧
          some from_root ≠ dictGet (env.svnInfo svnurl) "Repository Root" then
        if dictGet from_info "Repository UUID" ≠
            dictGet (env.svnInfo svnurl) "Repository UUID" then
          (.ok none, [])
        else if ¬ options.relocate then
          (.ok none, [])
        else
          match dictGet (env.svnInfo svnurl) "Repository Root" with
          | none => (.error .typeError, [])
          | some to_root =>
            match RunSVN env
                ["switch", "--relocate", from_root, to_root, relpath]
                root_dir with
            | (.error e, tr) => (.error e, tr)
            | (.ok _, tr) =>
              (.ok (some (pyReplace from_url0 from_root to_root)), tr)
      else (.ok (some from_url0), [])
    | none => (.ok (some from_url0), [])
  else (.ok (some from_url0), [])

/-- The operation selection of `UpdateToURL` for an existing working copy:
a no-op when the URL matches and the pinned revision matches (without
`--force`), `svn update` when only the URL matches, `svn switch`
otherwise. -/
def updateOpSelect (env : Env) (from_info : Dict String)
    (comps : List String) (from_url relpath root_dir : String)
    (options : Options) (args : List String) :
    Except PyErr (Option Int) × List SvnCall :=
  match
    (if comps.headD "" = from_url ∧ ¬ options.force ∧ comps.length > 1 then
      match dictGet from_info "Revision" with
      | none => .error (.keyError "Revision")
      | some rev => .ok (comps.getD 1 "" = rev)
    else (.ok false : Except PyErr Bool)) with
  | .error e => (.error e, [])
  | .ok true => (.ok none, [])
  | .ok false =>
    if comps.headD "" = from_url then
      match RunSVN env
          (["update"] ++
            (if comps.length > 1 then ["-r", comps.getD 1 ""] else []) ++ args)
          (pathJoin root_dir relpath) with
      | (r, tr) => (r.map some, tr)
    else
      match RunSVN env
          (["switch"] ++
            (if comps.length > 1 then ["-r", comps.getD 1 ""] else []) ++
            [comps.headD "", relpath] ++ args)
          root_dir with
      | (r, tr) => (r.map some, tr)

/-- `UpdateToURL(relpath, svnurl, root_dir, options, args)`: the per-entry
state machine.  Returns the Python return value (`none` models returning
`None` on the skip paths, `some code` the final `run_svn` result) together
with the `svn` invocations issued.  In the `From` pass of `UpdateAll` the
`svnurl` argument can be a `FromImpl` object, on which `svnurl.split("@")`
raises `AttributeError`. -/
def UpdateToURL (env : Env) (relpath : String) (svnurl : DepValue)
    (root_dir : String) (options : Options) (args : List String) :
    Except PyErr (Option Int) × List SvnCall :=
  if env.pathExists (pathJoin3 root_dir relpath ".git") then
    (.ok none, [])
  else
    match svnurl with
    | .fromModule _ => (.error .attributeError, [])
    | .str svnurl =>
      if env.pathExists (pathJoin root_dir relpath) then
        match dictGet (env.svnInfo relpath) "URL" with
        | none =>
          -- the source message also interpolates the svn URL and the repr
          -- of the info dict, whose rendering order Python leaves
          -- unspecified; the model keeps the stable prefix
          (.error (.gclientError
            ("Couldn't get URL for relative path: '" ++ relpath ++
             "' under root directory: " ++ root_dir ++ ".")), [])
        | some from_url0 =>
          match updateRelocate env (env.svnInfo relpath) (pySplit svnurl '@')
              from_url0 svnurl relpath root_dir options with
          | (.error e, tr) => (.error e, tr)
          | (.ok none, tr) => (.ok none, tr)
          | (.ok (some from_url), tr) =>
            match updateOpSelect env (env.svnInfo relpath)
                (pySplit svnurl '@') from_url relpath root_dir options args with
            | (r, tr2) => (r, tr ++ tr2)
      else
        match RunSVN env (["checkout", svnurl, relpath] ++ args) root_dir with
        | (r, tr) => (r.map some, tr)

/-! ### `UpdateAll` -/

/-- The revision-pinning rewrite applied to each solution URL in
`UpdateAll` when `options.revision` is set (and nonempty): a bare `REV`
pins every solution, a `SOLUTION@REV` pins only the named solution. -/
def pinSolutionURL (revision : Option String) (name url : String) : String :=
  match revision with
  | none => url
  | some rev =>
    if rev = "" then url
    else
      let url_elem := pySplit url '@'
      if ¬ (rev.toList.contains '@') then
        url_elem.headD "" ++ "@" ++ rev
      else
        let revision_elem := pySplit rev '@'
        if revision_elem.headD "" = name then
          url_elem.headD "" ++ "@" ++ revision_elem.getD 1 ""
        else url

/-- Exit code aggregation of `UpdateAll`: `if r and result == 0: result = r`
(a `None` or zero return leaves the aggregate untouched, and a later
nonzero code never overwrites an earlier one). -/
def aggregate (result : Int) (r : Option Int) : Int :=
  match r with
  | some v => if v ≠ 0 ∧ result = 0 then v else result
  | none => result

/-- The mutable state threaded through `UpdateAll`: the `entries` dict
under construction and the aggregated exit code. -/
structure PassState : Type where
  entries : Dict (Option DepValue)
  result : Int

/-- The outcome of one pass of `UpdateAll`: the final state (or the raised
exception), the `svn` invocations issued, and the relpaths passed to
`update_to_url`, in order. -/
structure PassOut : Type where
  out : Except PyErr PassState
  trace : List SvnCall
  processed : List String

/-- The solutions pass of `UpdateAll`: duplicate names fail, each solution
URL is pinned by `options.revision` and handed to `UpdateToURL`, and the
per-entry return values are aggregated. -/
def updateSolutions (env : Env) (root_dir : String) (options : Options)
    (args : List String) : List Solution → PassState → PassOut
  | [], st => ⟨.ok st, [], []⟩
  | s :: rest, st =>
    if dictMem st.entries s.name then
      ⟨.error (.gclientError "solution specified more than once"), [], []⟩
    else
      let url := pinSolutionURL options.revision s.name s.url
      let entries := dictSet st.entries s.name (some (.str url))
      match UpdateToURL env s.name (.str url) root_dir options args with
      | (.error e, tr) => ⟨.error e, tr, [s.name]⟩
      | (.ok r, tr) =>
        let res := updateSolutions env root_dir options args rest
          ⟨entries, aggregate st.result r⟩
        ⟨res.out, tr ++ res.trace, s.name :: res.processed⟩

/-- The explicit-dependency pass of `UpdateAll`: in sorted key order, each
dependency whose value is a plain URL string is recorded and synced. -/
def updateExplicitDeps (env : Env) (root_dir : String) (options : Options)
    (args : List String) (deps : Dict DepValue) :
    List String → PassState → PassOut
  | [], st => ⟨.ok st, [], []⟩
  | d :: rest, st =>
    match dictGet deps d with
    | some (.str u) =>
      let entries := dictSet st.entries d (some (.str u))
      match UpdateToURL env d (.str u) root_dir options args with
      | (.error e, tr) => ⟨.error e, tr, [d]⟩
      | (.ok r, tr) =>
        let res := updateExplicitDeps env root_dir options args deps rest
          ⟨entries, aggregate st.result r⟩
        ⟨res.out, tr ++ res.trace, d :: res.processed⟩
    | _ => updateExplicitDeps env root_dir options args deps rest st

/-- The inherited-dependency pass of `UpdateAll`: in sorted key order, each
dependency whose value is a `From` reference re-reads the referenced
module's DEPS (`sub_deps[d]` raises `KeyError` when the key is missing)
and syncs its verbatim value for the same key. -/
def updateFromDeps (env : Env) (client : Client) (options : Options)
    (args : List String) (deps : Dict DepValue) :
    List String → PassState → PassOut
  | [], st => ⟨.ok st, [], []⟩
  | d :: rest, st =>
    match dictGet deps d with
    | some (.fromModule m) =>
      let sub_deps := GetDefaultSolutionDeps env client m
      match dictGet sub_deps d with
      | none => ⟨.error (.keyError d), [], []⟩
      | some sv =>
        let entries := dictSet st.entries d (some sv)
        match UpdateToURL env d sv client.root_dir options args with
        | (.error e, tr) => ⟨.error e, tr, [d]⟩
        | (.ok r, tr) =>
          let res := updateFromDeps env client options args deps rest
            ⟨entries, aggregate st.result r⟩
          ⟨res.out, tr ++ res.trace, d :: res.processed⟩
    | _ => updateFromDeps env client options args deps rest st

/-- The orphan-detection loop of `UpdateAll`: every previously recorded
entry that is gone from the current plan but still present on disk is
re-added with a `None` tombstone so the warning repeats next run. -/
def markOrphans (env : Env) (root_dir : String) (prev : List String)
    (entries : Dict (Option DepValue)) : Dict (Option DepValue) :=
  prev.foldl
    (fun es e =>
      if ¬ dictMem es e ∧ env.pathExists (root_dir ++ "/" ++ e) then
        dictSet es e none
      else es)
    entries

/-- What a run of `UpdateAll` produces: its return value (or the exception
it raises), the `svn` invocations issued, the relpaths handed to
`update_to_url` in order, and the keys written to `.gclient_entries`
(`none` when the run aborts before the journal is rewritten). -/
structure UpdateAllResult : Type where
  outcome : Except PyErr Int
  trace : List SvnCall
  processed : List String
  journal : Option (List String)

/-- `UpdateAll(client, options, args)`: sync all solutions, resolve the
dependency map, sync explicit then inherited dependencies in sorted key
order, warn about orphans, and rewrite the entries journal. -/
def UpdateAll (env : Env) (client : Client) (options : Options)
    (args : List String) : UpdateAllResult :=
  let p1 := updateSolutions env client.root_dir options args
    client.solutions ⟨[], 0⟩
  match p1.out with
  | .error e => ⟨.error e, p1.trace, p1.processed, none⟩
  | .ok st1 =>
    match GetAllDeps env client st1.entries with
    | .error e => ⟨.error e, p1.trace, p1.processed, none⟩
    | .ok deps =>
      let deps_to_update := pySort (dictKeys deps)
      let p2 := updateExplicitDeps env client.root_dir options args deps
        deps_to_update st1
      match p2.out with
      | .error e =>
        ⟨.error e, p1.trace ++ p2.trace, p1.processed ++ p2.processed, none⟩
      | .ok st2 =>
        let p3 := updateFromDeps env client options args deps
          deps_to_update st2
        match p3.out with
        | .error e =>
          ⟨.error e, p1.trace ++ p2.trace ++ p3.trace,
           p1.processed ++ p2.processed ++ p3.processed, none⟩
        | .ok st3 =>
          let entries := markOrphans env client.root_dir env.prevEntries
            st3.entries
          ⟨.ok st3.result, p1.trace ++ p2.trace ++ p3.trace,
           p1.processed ++ p2.processed ++ p3.processed,
           some (dictKeys entries)⟩

/-! ### Dictionary lemmas -/

theorem find?_cons_eq {α : Type} (p : String × α) (l : List (String × α))
    (k : String) :
    (p :: l).find? (fun q => q.1 = k) =
      if p.1 = k then some p else l.find? (fun q => q.1 = k) := by
  by_cases h : p.1 = k
  · rw [List.find?_cons_of_pos _ (by simpa using h), if_pos h]
  · rw [List.find?_cons_of_neg _ (by simpa using h), if_neg h]

theorem dictGet_cons {α : Type} (p : String × α) (l : Dict α) (k : String) :
    dictGet (p :: l) k = if p.1 = k then some p.2 else dictGet l k := by
  unfold dictGet
  rw [find?_cons_eq]
  by_cases h : p.1 = k
  · rw [if_pos h, if_pos h]; rfl
  · rw [if_neg h, if_neg h]

theorem dictMem_cons {α : Type} (p : String × α) (l : Dict α) (k : String) :
    dictMem (p :: l) k = (decide (p.1 = k) || dictMem l k) := by
  unfold dictMem
  rw [find?_cons_eq]
  by_cases h : p.1 = k
  · simp [h]
  · simp [h]

theorem dictGet_append_single_self {α : Type} (m : Dict α) (k : String)
    (v : α) (hm : dictMem m k = false) :
    dictGet (m ++ [(k, v)]) k = some v := by
  induction m with
  | nil => simp [dictGet_cons]
  | cons p rest ih =>
    rw [dictMem_cons, Bool.or_eq_false_iff] at hm
    rw [List.cons_append, dictGet_cons,
      if_neg (by simpa using hm.1)]
    exact ih hm.2

theorem dictGet_append_single_ne {α : Type} (m : Dict α) (k x : String)
    (v : α) (h : x ≠ k) :
    dictGet (m ++ [(k, v)]) x = dictGet m x := by
  induction m with
  | nil =>
    rw [List.nil_append, dictGet_cons,
      if_neg (show ¬ ((k, v).1 = x) from fun e => h e.symm)]
  | cons p rest ih =>
    rw [List.cons_append, dictGet_cons, dictGet_cons]
    by_cases hx : p.1 = x
    · rw [if_pos hx, if_pos hx]
    · rw [if_neg hx, if_neg hx]
      exact ih

theorem dictGet_map_replace_self {α : Type} (m : Dict α) (k : String)
    (v : α) (hm : dictMem m k = true) :
    dictGet (m.map (fun p => if p.1 = k then (k, v) else p)) k = some v := by
  induction m with
  | nil => simp [dictMem] at hm
  | cons p rest ih =>
    rw [dictMem_cons] at hm
    rw [List.map_cons]
    by_cases hp : p.1 = k
    · rw [if_pos hp, dictGet_cons, if_pos rfl]
    · rw [if_neg hp, dictGet_cons, if_neg hp]
      exact ih (by simpa [hp] using hm)

theorem dictGet_map_replace_ne {α : Type} (m : Dict α) (k x : String)
    (v : α) (h : x ≠ k) :
    dictGet (m.map (fun p => if p.1 = k then (k, v) else p)) x
      = dictGet m x := by
  induction m with
  | nil => rfl
  | cons p rest ih =>
    rw [List.map_cons]
    by_cases hp : p.1 = k
    · rw [if_pos hp, dictGet_cons, dictGet_cons,
        if_neg (show ¬ ((k, v).1 = x) from fun e => h e.symm),
        if_neg (show ¬ (p.1 = x) from fun e => h (by rw [← e, hp]))]
      exact ih
    · rw [if_neg hp, dictGet_cons, dictGet_cons]
      by_cases hx : p.1 = x
      · rw [if_pos hx, if_pos hx]
      · rw [if_neg hx, if_neg hx]
        exact ih

theorem dictGet_dictSet_self {α : Type} (m : Dict α) (k : String) (v : α) :
    dictGet (dictSet m k v) k = some v := by
  unfold dictSet
  by_cases hm : dictMem m k = true
  · rw [if_pos hm]
    exact dictGet_map_replace_self m k v hm
  · rw [if_neg hm]
    exact dictGet_append_single_self m k v (by simpa using hm)

theorem dictGet_dictSet_ne {α : Type} (m : Dict α) (k x : String) (v : α)
    (h : x ≠ k) : dictGet (dictSet m k v) x = dictGet m x := by
  unfold dictSet
  by_cases hm : dictMem m k = true
  · rw [if_pos hm]
    exact dictGet_map_replace_ne m k x v h
  · rw [if_neg hm]
    exact dictGet_append_single_ne m k x v h

theorem dictMem_of_dictGet {α : Type} {m : Dict α} {k : String} {v : α}
    (h : dictGet m k = some v) : dictMem m k = true := by
  unfold dictGet at h
  unfold dictMem
  rcases ho : m.find? (fun p => p.1 = k) with _ | p
  · rw [ho] at h; simp at h
  · rw [ho]; rfl

theorem mem_dictKeys_of_dictMem {α : Type} {m : Dict α} {k : String}
    (h : dictMem m k = true) : k ∈ dictKeys m := by
  unfold dictMem at h
  rw [Option.isSome_iff_exists] at h
  obtain ⟨p, hp⟩ := h
  have h1 := List.mem_of_find?_eq_some hp
  have h2 : p.1 = k := by simpa using List.find?_some hp
  exact h2 ▸ List.mem_map_of_mem _ h1

theorem dictKeys_map_replace {α : Type} (m : Dict α) (k : String) (v : α) :
    dictKeys (m.map (fun p => if p.1 = k then (k, v) else p))
      = dictKeys m := by
  induction m with
  | nil => rfl
  | cons p rest ih =>
    rw [List.map_cons]
    by_cases hp : p.1 = k
    · rw [if_pos hp]
      unfold dictKeys at *
      rw [List.map_cons, List.map_cons, ih, hp]
    · rw [if_neg hp]
      unfold dictKeys at *
      rw [List.map_cons, List.map_cons, ih]

theorem mem_dictKeys_dictSet {α : Type} (m : Dict α) (k x : String) (v : α) :
    x ∈ dictKeys (dictSet m k v) ↔ x ∈ dictKeys m ∨ x = k := by
  unfold dictSet
  by_cases hm : dictMem m k = true
  · rw [if_pos hm, dictKeys_map_replace]
    constructor
    · exact Or.inl
    · rintro (h | h)
      · exact h
      · exact h ▸ mem_dictKeys_of_dictMem hm
  · rw [if_neg hm]
    unfold dictKeys
    simp

/-! ### Sorting lemmas -/

/-- The ordering relation `pySort` arranges by. -/
def pyLe (a b : String) : Prop := pyStrLe a b = true

theorem charListLe_trans :
    ∀ {a b c : List Char}, charListLe a b = true → charListLe b c = true →
      charListLe a c = true
  | [], _, _, _, _ => rfl
  | _ :: _, [], _, h, _ => by simp [charListLe] at h
  | _ :: _, _ :: _, [], _, h => by simp [charListLe] at h
  | a :: as, b :: bs, c :: cs, h₁, h₂ => by
    simp only [charListLe] at h₁ h₂ ⊢
    by_cases hab : a.toNat = b.toNat
    · by_cases hbc : b.toNat = c.toNat
      · rw [if_pos hab] at h₁
        rw [if_pos hbc] at h₂
        rw [if_pos (hab.trans hbc)]
        exact charListLe_trans h₁ h₂
      · rw [if_neg hbc] at h₂
        rw [if_neg (show ¬ a.toNat = c.toNat from hab ▸ hbc), hab]
        exact h₂
    · by_cases hbc : b.toNat = c.toNat
      · rw [if_neg hab] at h₁
        rw [if_neg (show ¬ a.toNat = c.toNat from hbc ▸ hab), ← hbc]
        exact h₁
      · rw [if_neg hab] at h₁
        rw [if_neg hbc] at h₂
        have hlt : a.toNat < c.toNat :=
          Nat.lt_trans (of_decide_eq_true h₁) (of_decide_eq_true h₂)
        rw [if_neg (Nat.ne_of_lt hlt)]
        exact decide_eq_true hlt

theorem charListLe_total (a b : List Char) :
    charListLe a b = true ∨ charListLe b a = true := by
  induction a generalizing b with
  | nil => left; rfl
  | cons x xs ih =>
    cases b with
    | nil => right; rfl
    | cons y ys =>
      by_cases h : x.toNat = y.toNat
      · rcases ih ys with h' | h'
        · left
          simp only [charListLe]
          rw [if_pos h]
          exact h'
        · right
          simp only [charListLe]
          rw [if_pos h.symm]
          exact h'
      · rcases Nat.lt_or_ge x.toNat y.toNat with h' | h'
        · left
          simp only [charListLe]
          rw [if_neg h]
          exact decide_eq_true h'
        · right
          simp only [charListLe]
          rw [if_neg (show ¬ y.toNat = x.toNat from fun e => h e.symm)]
          exact decide_eq_true
            (Nat.lt_of_le_of_ne h' (fun e => h e.symm))

theorem pyLe_trans {a b c : String} (h₁ : pyLe a b) (h₂ : pyLe b c) :
    pyLe a c :=
  charListLe_trans h₁ h₂

theorem pyLe_total (a b : String) : pyLe a b ∨ pyLe b a :=
  charListLe_total a.toList b.toList

theorem mem_orderedInsertPy {x z : String} :
    ∀ {l : List String}, z ∈ orderedInsertPy x l ↔ z = x ∨ z ∈ l
  | [] => by simp [orderedInsertPy]
  | y :: ys => by
    unfold orderedInsertPy
    split
    · simp
    · simp [mem_orderedInsertPy (l := ys)]
      tauto

theorem sorted_orderedInsertPy {x : String} :
    ∀ {l : List String}, List.Sorted pyLe l →
      List.Sorted pyLe (orderedInsertPy x l)
  | [], _ => List.sorted_singleton x
  | y :: ys, h => by
    unfold orderedInsertPy
    rw [List.sorted_cons] at h
    split
    · rename_i hxy
      rw [List.sorted_cons]
      refine ⟨?_, List.sorted_cons.mpr h⟩
      intro b hb
      rcases List.mem_cons.mp hb with hb | hb
      · exact hb ▸ hxy
      · exact pyLe_trans hxy (h.1 b hb)
    · rename_i hxy
      rw [List.sorted_cons]
      refine ⟨?_, sorted_orderedInsertPy h.2⟩
      intro b hb
      rcases mem_orderedInsertPy.mp hb with hb | hb
      · rcases pyLe_total y x with h' | h'
        · exact hb ▸ h'
        · exact absurd h' hxy
      · exact h.1 b hb

theorem sorted_pySort : ∀ (l : List String), List.Sorted pyLe (pySort l)
  | [] => List.sorted_nil
  | _ :: xs => sorted_orderedInsertPy (sorted_pySort xs)

/-! ### Claim C4 -/

/-- C4: for a DEPS value that is a URL string without a scheme, the
resolver expands a value starting with `/` by prepending the repository
root that `svn info` reports for the owning solution's URL, and fails with
the `relative DEPS entry ... must begin with a slash` error when the value
does not start with `/`. -/
theorem C4_relative_url_resolution (env : Env) (solution_url : String)
    (solution_urls : Dict (Option DepValue)) (deps : Dict DepValue)
    (d u : String) (hscheme : (pyUrlparse u).1 = "") :
    (∀ cs, (pyUrlparse u).2.toList = '/' :: cs →
      ∀ root,
        dictGet (env.svnInfo solution_url) "Repository Root" = some root →
        defaultDepValue env solution_url solution_urls deps d (.str u)
          = .ok (some (.str (root ++ u))))
    ∧ (∀ c cs, (pyUrlparse u).2.toList = c :: cs → c ≠ '/' →
        defaultDepValue env solution_url solution_urls deps d (.str u)
          = .error (.gclientError
            ("relative DEPS entry \"" ++ d ++ "\" must begin with a slash"))) := by
  constructor
  · intro cs hpath root hroot
    simp only [defaultDepValue]
    rw [if_pos hscheme, hpath]
    simp only
    rw [if_neg (show ¬ ('/' ≠ '/') from by simp), hroot]
  · intro c cs hpath hc
    simp only [defaultDepValue]
    rw [if_pos hscheme, hpath]
    simp only
    rw [if_pos hc]

/-- C4 witness: the spec's own example `/trunk/shared` under repository
root `http://host/svn` resolves to `http://host/svn/trunk/shared`, and the
schemeless `a/bad/path` raises the relative-entry error. -/
theorem C4_relative_url_resolution_witness :
    defaultDepValue
        ⟨"linux2", fun _ => none,
         fun p => if p = "http://host/svn/s"
           then [("Repository Root", "http://host/svn")] else [],
         fun _ => false, fun _ _ => 0, []⟩
        "http://host/svn/s" [] [] "dep" (.str "/trunk/shared")
      = .ok (some (.str "http://host/svn/trunk/shared"))
    ∧ defaultDepValue
        ⟨"linux2", fun _ => none, fun _ => [],
         fun _ => false, fun _ _ => 0, []⟩
        "http://host/svn/s" [] [] "dep" (.str "a/bad/path")
      = .error (.gclientError
          "relative DEPS entry \"dep\" must begin with a slash") := by
  constructor
  · exact (C4_relative_url_resolution _ "http://host/svn/s" [] [] "dep"
      "/trunk/shared" (by decide)).1 "trunk/shared".toList (by decide)
      "http://host/svn" (by decide)
  · exact (C4_relative_url_resolution _ "http://host/svn/s" [] [] "dep"
      "a/bad/path" (by decide)).2 'a' "/bad/path".toList (by decide) (by decide)

/-! ### Claim C10 -/

/-- C10: a non-null `custom_deps` override is taken verbatim by the
per-dependency step of `GetAllDeps`: whatever its shape (a repo-relative
URL, a schemeless path, or a `From` naming a solution) it is recorded
unchanged, bypassing the relative-URL expansion, the `RelativeURLError`
check and the `From`-of-a-solution skip, which apply only to values read
from the DEPS file. -/
theorem C10_custom_deps_verbatim (env : Env) (solution : Solution)
    (solution_urls : Dict (Option DepValue))
    (solution_deps deps : Dict DepValue) (rest : List String) (d : String)
    (cd : Dict (Option DepValue)) (v : DepValue)
    (hcd : solution.custom_deps = some cd)
    (hv : dictGet cd d = some (some v))
    (hdep : dictMem deps d = false)
    (hsu : dictMem solution_urls d = false) :
    getAllDepsLoop env solution solution_urls solution_deps (d :: rest) deps
      = getAllDepsLoop env solution solution_urls solution_deps rest
          (dictSet deps d v) := by
  have hmem : dictMem cd d = true := dictMem_of_dictGet hv
  simp only [getAllDepsLoop, getAllDepsValue, hcd, hmem, hv, hdep, hsu]
  simp

/-- C10 witness: a custom override `/still/relative` (which the DEPS path
would reject or expand) is stored verbatim for key `x`. -/
theorem C10_custom_deps_verbatim_witness :
    getAllDepsLoop
        ⟨"linux2", fun _ => none, fun _ => [], fun _ => false,
         fun _ _ => 0, []⟩
        ⟨"s", "http://svn/s", some [("x", some (.str "/still/relative"))]⟩
        [("s", some (.str "http://svn/s"))]
        [("x", .str "http://from/deps")] ["x"] []
      = .ok [("x", .str "/still/relative")] := by
  rw [C10_custom_deps_verbatim _ _ _ _ _ _ "x"
    [("x", some (.str "/still/relative"))] (.str "/still/relative")
    rfl (by decide) (by decide) (by decide)]
  rfl

/-! ### `RunSVN` helper lemmas -/

theorem RunSVN_trace (env : Env) (args : List String) (dir : String) :
    (RunSVN env args dir).2 = [⟨args, dir⟩] := by
  unfold RunSVN
  split <;> rfl

theorem RunSVN_ok (env : Env) (args : List String) (dir : String)
    (h : env.call ("svn" :: args) dir = 0) :
    RunSVN env args dir = (.ok 0, [⟨args, dir⟩]) := by
  unfold RunSVN
  rw [h]
  simp

theorem RunSVN_error (env : Env) (args : List String) (dir : String)
    (h : env.call ("svn" :: args) dir ≠ 0) :
    RunSVN env args dir =
      (.error (.gclientError
        ("failed to run command: " ++ joinWith " " ("svn" :: args))),
       [⟨args, dir⟩]) := by
  unfold RunSVN
  rw [if_pos h]

/-! ### Claim C7 -/

/-- C7: for an entry whose working copy exists and already sits at the
target URL with the target's pinned revision, a sync with `force = false`
issues no `svn` invocation at all for that entry (the Python function
returns `None`), while with `force = true` an `svn update -r REV` is
reissued. -/
theorem C7_matching_revision_noop (env : Env)
    (relpath root_dir u r : String) (vb rl : Bool) (rv : Option String)
    (args : List String)
    (hgit : env.pathExists (pathJoin3 root_dir relpath ".git") = false)
    (hex : env.pathExists (pathJoin root_dir relpath) = true)
    (hsplit : pySplit (u ++ "@" ++ r) '@' = [u, r])
    (hurl : dictGet (env.svnInfo relpath) "URL" = some u)
    (hrev : dictGet (env.svnInfo relpath) "Revision" = some r) :
    UpdateToURL env relpath (.str (u ++ "@" ++ r)) root_dir
        ⟨vb, false, rl, rv⟩ args = (.ok none, [])
    ∧ (UpdateToURL env relpath (.str (u ++ "@" ++ r)) root_dir
        ⟨vb, true, rl, rv⟩ args).2 =
      [⟨["update", "-r", r] ++ args, pathJoin root_dir relpath⟩] := by
  constructor
  · simp only [UpdateToURL, hgit, hex, hsplit, hurl]
    simp only [updateRelocate, updateOpSelect, hrev]
    simp
  · simp only [UpdateToURL, hgit, hex, hsplit, hurl]
    simp only [updateRelocate, updateOpSelect, hrev]
    simp [RunSVN_trace]

/-- C7 witness: a working copy of `http://svn/trunk` at revision `123`
targeted at `http://svn/trunk@123` is untouched without `--force` and
updated with it. -/
theorem C7_matching_revision_noop_witness :
    UpdateToURL
        ⟨"linux2", fun _ => none,
         fun p => if p = "rel"
           then [("URL", "http://svn/trunk"), ("Revision", "123")] else [],
         fun p => p = "/r/rel", fun _ _ => 0, []⟩
        "rel" (.str "http://svn/trunk@123") "/r" ⟨false, false, false, none⟩ []
      = (.ok none, [])
    ∧ (UpdateToURL
        ⟨"linux2", fun _ => none,
         fun p => if p = "rel"
           then [("URL", "http://svn/trunk"), ("Revision", "123")] else [],
         fun p => p = "/r/rel", fun _ _ => 0, []⟩
        "rel" (.str "http://svn/trunk@123") "/r" ⟨false, true, false, none⟩ []).2
      = [⟨["update", "-r", "123"], "/r/rel"⟩] := by
  have h := C7_matching_revision_noop
    ⟨"linux2", fun _ => none,
     fun p => if p = "rel"
       then [("URL", "http://svn/trunk"), ("Revision", "123")] else [],
     fun p => p = "/r/rel", fun _ _ => 0, []⟩
    "rel" "/r" "http://svn/trunk" "123" false false none []
    (by decide) (by decide) (by decide) (by decide) (by decide)
  exact ⟨h.1, h.2⟩

/-! ### Claim C8 -/

/-- C8: when the working copy's repository root differs from the target's,
the entry is skipped as a success (the function returns `None` and issues
no `svn` invocation) if the repository UUIDs differ, and likewise if they
match but `--relocate` was not given; an `svn switch --relocate` is issued
only when the UUIDs match and the option is set. -/
theorem C8_relocation_guard (env : Env) (relpath root_dir u fu fr : String)
    (options : Options) (args : List String)
    (hgit : env.pathExists (pathJoin3 root_dir relpath ".git") = false)
    (hex : env.pathExists (pathJoin root_dir relpath) = true)
    (hurl : dictGet (env.svnInfo relpath) "URL" = some fu)
    (hne : (pySplit u '@').headD "" ≠ fu)
    (hfr : dictGet (env.svnInfo relpath) "Repository Root" = some fr)
    (hfrne : fr ≠ "")
    (hroots : some fr ≠ dictGet (env.svnInfo u) "Repository Root") :
    (dictGet (env.svnInfo relpath) "Repository UUID" ≠
        dictGet (env.svnInfo u) "Repository UUID" →
      UpdateToURL env relpath (.str u) root_dir options args = (.ok none, []))
    ∧ (dictGet (env.svnInfo relpath) "Repository UUID" =
          dictGet (env.svnInfo u) "Repository UUID" →
        options.relocate = false →
        UpdateToURL env relpath (.str u) root_dir options args = (.ok none, []))
    ∧ (∀ tr, dictGet (env.svnInfo relpath) "Repository UUID" =
          dictGet (env.svnInfo u) "Repository UUID" →
        options.relocate = true →
        dictGet (env.svnInfo u) "Repository Root" = some tr →
        ∃ rest, (UpdateToURL env relpath (.str u) root_dir options args).2 =
          ⟨["switch", "--relocate", fr, tr, relpath], root_dir⟩ :: rest) := by
  refine ⟨?_, ?_, ?_⟩
  · intro huuid
    simp only [UpdateToURL, hgit, hex, hurl]
    simp only [updateRelocate, hfr]
    rw [if_pos hne, if_pos (And.intro hfrne hroots), if_pos huuid]
    simp
  · intro huuid hrel
    simp only [UpdateToURL, hgit, hex, hurl]
    simp only [updateRelocate, hfr]
    rw [if_pos hne, if_pos (And.intro hfrne hroots),
      if_neg (show ¬ (dictGet (env.svnInfo relpath) "Repository UUID" ≠
        dictGet (env.svnInfo u) "Repository UUID") from by simp [huuid]),
      if_pos (show ¬ (options.relocate = true) from by simp [hrel])]
    simp
  · intro tr huuid hrel htr
    simp only [UpdateToURL, hgit, hex, hurl]
    simp only [updateRelocate, hfr, htr]
    rw [if_pos hne, if_pos (And.intro hfrne (htr ▸ hroots)),
      if_neg (show ¬ (dictGet (env.svnInfo relpath) "Repository UUID" ≠
        dictGet (env.svnInfo u) "Repository UUID") from by simp [huuid]),
      if_neg (show ¬ ¬ (options.relocate = true) from by simp [hrel])]
    rcases hrun : RunSVN env ["switch", "--relocate", fr, tr, relpath]
        root_dir with ⟨r, tr2⟩
    have htr2 : tr2 = [⟨["switch", "--relocate", fr, tr, relpath], root_dir⟩] := by
      have h := RunSVN_trace env ["switch", "--relocate", fr, tr, relpath] root_dir
      rw [hrun] at h
      exact h
    cases r with
    | error e =>
      refine ⟨[], ?_⟩
      simp [htr2]
    | ok rv =>
      refine ⟨(updateOpSelect env (env.svnInfo relpath) (pySplit u '@')
        (pyReplace fu fr tr) relpath root_dir options args).2, ?_⟩
      rcases hop : updateOpSelect env (env.svnInfo relpath) (pySplit u '@')
        (pyReplace fu fr tr) relpath root_dir options args with ⟨r2, tr3⟩
      simp [hop, htr2]

/-- Environment for the C8 witness: a working copy at `http://old/x` rooted
at `http://old` with UUID `u1`, targeted at `http://new/x` rooted at
`http://new` with UUID `u2`. -/
def envC8 : Env :=
  { platform := "linux2"
    depsScopes := fun _ => none
    svnInfo := fun p =>
      if p = "rel" then
        [("URL", "http://old/x"), ("Repository Root", "http://old"),
         ("Repository UUID", "u1")]
      else if p = "http://new/x" then
        [("Repository Root", "http://new"), ("Repository UUID", "u2")]
      else []
    pathExists := fun p => p = "/r/rel"
    call := fun _ _ => 0
    prevEntries := [] }

/-- C8 witness: with differing repository UUIDs the entry is skipped with
no `svn` invocation and no error, even though `--relocate` is set. -/
theorem C8_relocation_guard_witness :
    UpdateToURL envC8 "rel" (.str "http://new/x") "/r"
        ⟨false, false, true, none⟩ [] = (.ok none, []) :=
  (C8_relocation_guard envC8 "rel" "/r" "http://new/x" "http://old/x"
    "http://old" ⟨false, false, true, none⟩ [] (by decide) (by decide)
    (by decide) (by decide) (by decide) (by decide) (by decide)).1 (by decide)

/-! ### Claim C9 -/

/-- `UpdateToURL` never reads `options.revision`, so its result is the same
for any two revision options. -/
theorem UpdateToURL_revision_independent (env : Env) (relpath : String)
    (svnurl : DepValue) (root_dir : String) (vb f rl : Bool)
    (r1 r2 : Option String) (args : List String) :
    UpdateToURL env relpath svnurl root_dir ⟨vb, f, rl, r1⟩ args =
      UpdateToURL env relpath svnurl root_dir ⟨vb, f, rl, r2⟩ args := rfl

/-- The explicit-dependency pass never reads `options.revision`. -/
theorem updateExplicitDeps_revision_independent (env : Env)
    (root_dir : String) (vb f rl : Bool) (r1 r2 : Option String)
    (args : List String) (deps : Dict DepValue) (l : List String) :
    ∀ st, updateExplicitDeps env root_dir ⟨vb, f, rl, r1⟩ args deps l st =
      updateExplicitDeps env root_dir ⟨vb, f, rl, r2⟩ args deps l st := by
  induction l with
  | nil => intro st; rfl
  | cons d rest ih =>
    intro st
    cases hd : dictGet deps d with
    | none => simp only [updateExplicitDeps, hd]; exact ih _
    | some v =>
      cases v with
      | fromModule m => simp only [updateExplicitDeps, hd]; exact ih _
      | str u =>
        simp only [updateExplicitDeps, hd]
        rw [UpdateToURL_revision_independent env d (DepValue.str u)
          root_dir vb f rl r1 r2 args]
        rcases UpdateToURL env d (DepValue.str u) root_dir
            ⟨vb, f, rl, r2⟩ args with ⟨ru, tru⟩
        cases ru with
        | error e => rfl
        | ok r => simp only [ih]

/-- The inherited-dependency (`From`) pass never reads `options.revision`. -/
theorem updateFromDeps_revision_independent (env : Env) (client : Client)
    (vb f rl : Bool) (r1 r2 : Option String) (args : List String)
    (deps : Dict DepValue) (l : List String) :
    ∀ st, updateFromDeps env client ⟨vb, f, rl, r1⟩ args deps l st =
      updateFromDeps env client ⟨vb, f, rl, r2⟩ args deps l st := by
  induction l with
  | nil => intro st; rfl
  | cons d rest ih =>
    intro st
    cases hd : dictGet deps d with
    | none => simp only [updateFromDeps, hd]; exact ih _
    | some v =>
      cases v with
      | str u => simp only [updateFromDeps, hd]; exact ih _
      | fromModule m =>
        cases hs : dictGet (GetDefaultSolutionDeps env client m) d with
        | none => simp only [updateFromDeps, hd, hs]
        | some sv =>
          simp only [updateFromDeps, hd, hs]
          rw [UpdateToURL_revision_independent env d sv
            client.root_dir vb f rl r1 r2 args]
          rcases UpdateToURL env d sv client.root_dir
              ⟨vb, f, rl, r2⟩ args with ⟨ru, tru⟩
          cases ru with
          | error e => rfl
          | ok r => simp only [ih]

/-- C9: a bare `--revision REV` rewrites every solution's target to
`url@REV`, replacing any revision the configured URL carried;
`--revision SOLUTION@REV` rewrites only the solution with exactly that
name, leaving the others untouched; and the two dependency passes are
oblivious to `options.revision`, so dependency targets are taken verbatim
from the DEPS manifests in either form. -/
theorem C9_revision_pinning :
    (∀ (rev url name base : String) (rest : List String),
      rev ≠ "" → rev.toList.contains '@' = false →
      pySplit url '@' = base :: rest →
      pinSolutionURL (some rev) name url = base ++ "@" ++ rev)
    ∧ (∀ (rev url name s r2 base : String)
        (rrest rest : List String),
        rev ≠ "" → rev.toList.contains '@' = true →
        pySplit rev '@' = s :: r2 :: rrest →
        pySplit url '@' = base :: rest →
        (s = name → pinSolutionURL (some rev) name url = base ++ "@" ++ r2)
        ∧ (s ≠ name → pinSolutionURL (some rev) name url = url))
    ∧ (∀ (env : Env) (root_dir : String) (vb f rl : Bool)
        (r1 r2 : Option String) (args : List String) (deps : Dict DepValue)
        (l : List String) (st : PassState),
        updateExplicitDeps env root_dir ⟨vb, f, rl, r1⟩ args deps l st =
          updateExplicitDeps env root_dir ⟨vb, f, rl, r2⟩ args deps l st)
    ∧ (∀ (env : Env) (client : Client) (vb f rl : Bool)
        (r1 r2 : Option String) (args : List String) (deps : Dict DepValue)
        (l : List String) (st : PassState),
        updateFromDeps env client ⟨vb, f, rl, r1⟩ args deps l st =
          updateFromDeps env client ⟨vb, f, rl, r2⟩ args deps l st) := by
  refine ⟨?_, ?_, ?_, ?_⟩
  · intro rev url name base rest hne hc hsplit
    simp only [pinSolutionURL]
    rw [if_neg hne,
      if_pos (show ¬ (rev.toList.contains '@' = true) from by rw [hc]; simp),
      hsplit]
    rfl
  · intro rev url name s r2 base rrest rest hne hc hr hsplit
    constructor
    · intro hs
      simp only [pinSolutionURL]
      rw [if_neg hne,
        if_neg (show ¬ ¬ (rev.toList.contains '@' = true) from by
          rw [hc]; simp),
        hr, hsplit]
      simp only [List.headD_cons]
      rw [if_pos hs]
      rfl
    · intro hs
      simp only [pinSolutionURL]
      rw [if_neg hne,
        if_neg (show ¬ ¬ (rev.toList.contains '@' = true) from by
          rw [hc]; simp),
        hr]
      simp only [List.headD_cons]
      rw [if_neg hs]
  · intro env root_dir vb f rl r1 r2 args deps l st
    exact updateExplicitDeps_revision_independent env root_dir vb f rl
      r1 r2 args deps l st
  · intro env client vb f rl r1 r2 args deps l st
    exact updateFromDeps_revision_independent env client vb f rl
      r1 r2 args deps l st

/-- C9 witness: `--revision 500` rewrites `http://svn/s@100` to
`http://svn/s@500`; `--revision other@500` leaves solution `s` alone. -/
theorem C9_revision_pinning_witness :
    pinSolutionURL (some "500") "s" "http://svn/s@100" = "http://svn/s@500"
    ∧ pinSolutionURL (some "other@500") "s" "http://svn/s@100"
      = "http://svn/s@100" := by
  constructor
  · have h := C9_revision_pinning.1 "500" "http://svn/s@100" "s"
      "http://svn/s" ["100"] (by decide) (by decide) (by decide)
    exact h
  · have h := (C9_revision_pinning.2.1 "other@500" "http://svn/s@100" "s"
      "other" "500" "http://svn/s" [] ["100"] (by decide) (by decide)
      (by decide) (by decide)).2 (by decide)
    exact h

/-! ### Claim C2 -/

theorem getAllDepsLoop_keys (env : Env) (solution : Solution)
    (solution_urls : Dict (Option DepValue)) (solution_deps : Dict DepValue) :
    ∀ (l : List String) (deps deps' : Dict DepValue),
      getAllDepsLoop env solution solution_urls solution_deps l deps
        = .ok deps' →
      ∀ k, k ∈ dictKeys deps' → k ∈ dictKeys deps ∨ k ∈ l := by
  intro l
  induction l with
  | nil =>
    intro deps deps' h k hk
    simp only [getAllDepsLoop, Except.ok.injEq] at h
    exact Or.inl (h ▸ hk)
  | cons d rest ih =>
    intro deps deps' h k hk
    simp only [getAllDepsLoop] at h
    cases hv : getAllDepsValue env solution solution_urls deps
        solution_deps d with
    | error e => rw [hv] at h; cases h
    | ok o =>
      rw [hv] at h
      cases o with
      | none =>
        rcases ih deps deps' h k hk with h' | h'
        · exact Or.inl h'
        · exact Or.inr (List.mem_cons_of_mem d h')
      | some url =>
        simp only at h
        by_cases hc1 : (dictMem deps d &&
            pyNeqDep ((dictGet deps d).getD default) url) = true
        · rw [if_pos hc1] at h; cases h
        · rw [if_neg hc1] at h
          by_cases hc2 : (dictMem solution_urls d &&
              pyNeqOptDep ((dictGet solution_urls d).getD none) url) = true
          · rw [if_pos hc2] at h; cases h
          · rw [if_neg hc2] at h
            rcases ih _ deps' h k hk with h' | h'
            · rcases (mem_dictKeys_dictSet deps d k url).mp h' with h'' | h''
              · exact Or.inl h''
              · exact Or.inr (h'' ▸ List.mem_cons_self d rest)
            · exact Or.inr (List.mem_cons_of_mem d h')

theorem getAllDepsSolutions_keys (env : Env) (client : Client)
    (solution_urls : Dict (Option DepValue)) :
    ∀ (sols : List Solution) (deps deps' : Dict DepValue),
      getAllDepsSolutions env client solution_urls sols deps = .ok deps' →
      ∀ k, k ∈ dictKeys deps' →
        k ∈ dictKeys deps ∨
        ∃ s, s ∈ sols ∧
          k ∈ dictKeys (GetDefaultSolutionDeps env client s.name) := by
  intro sols
  induction sols with
  | nil =>
    intro deps deps' h k hk
    simp only [getAllDepsSolutions, Except.ok.injEq] at h
    exact Or.inl (h ▸ hk)
  | cons s rest ih =>
    intro deps deps' h k hk
    simp only [getAllDepsSolutions] at h
    cases hl : getAllDepsLoop env s solution_urls
        (GetDefaultSolutionDeps env client s.name)
        (dictKeys (GetDefaultSolutionDeps env client s.name)) deps with
    | error e => rw [hl] at h; cases h
    | ok dmid =>
      rw [hl] at h
      rcases ih dmid deps' h k hk with h' | h'
      · rcases getAllDepsLoop_keys env s solution_urls _ _ deps dmid hl
            k h' with h'' | h''
        · exact Or.inl h''
        · exact Or.inr ⟨s, List.mem_cons_self s rest, h''⟩
      · obtain ⟨s', hs', hk'⟩ := h'
        exact Or.inr ⟨s', List.mem_cons_of_mem s hs', hk'⟩

/-- C2 amended: a `custom_deps` binding takes effect only through a key of
the owning solution's DEPS file — every key of the resolved dependency map
occurs in some solution's (platform-merged) DEPS dict, so a `custom_deps`
key absent from every DEPS is silently ignored rather than added. -/
theorem C2_custom_deps_only_override (env : Env) (client : Client)
    (solution_urls : Dict (Option DepValue)) (m : Dict DepValue) (k : String)
    (h : GetAllDeps env client solution_urls = .ok m)
    (hk : k ∈ dictKeys m) :
    ∃ s, s ∈ client.solutions ∧
      k ∈ dictKeys (GetDefaultSolutionDeps env client s.name) := by
  rcases getAllDepsSolutions_keys env client solution_urls client.solutions
      [] m h k hk with h' | h'
  · simp [dictKeys] at h'
  · exact h'

/-- Client for the C2 counterexample and witness: one solution with an
empty DEPS file and a `custom_deps` entry `x` that names no DEPS key. -/
def clientC2 : Client :=
  { root_dir := "/r"
    solutions := [⟨"s", "http://svn/s", some [("x", some (.str "http://x"))]⟩] }

/-- Environment for the C2 counterexample: the solution's DEPS file exists
and binds `deps = {}`. -/
def envC2 : Env :=
  { platform := "linux2"
    depsScopes := fun p =>
      if p = "/r/s/DEPS" then some ⟨some [], []⟩ else none
    svnInfo := fun _ => []
    pathExists := fun _ => false
    call := fun _ _ => 0
    prevEntries := [] }

/-- C2 counterexample: solution `s` binds `x ↦ http://x` in `custom_deps`
and `x` does not occur in its DEPS, yet the resolved dependency map is
empty — the custom entry is not added. -/
theorem C2_custom_deps_addition_counterexample :
    (clientC2.solutions.headD ⟨"", "", none⟩).custom_deps
      = some [("x", some (.str "http://x"))]
    ∧ GetAllDeps envC2 clientC2 [("s", some (.str "http://svn/s"))]
      = .ok [] := by
  exact ⟨rfl, rfl⟩

/-- Client for the C2 witness: the same custom override, but with `x`
present in the DEPS file. -/
def clientC2w : Client :=
  { root_dir := "/r"
    solutions :=
      [⟨"s", "http://svn/s", some [("x", some (.str "http://custom"))]⟩] }

/-- Environment for the C2 witness. -/
def envC2w : Env :=
  { platform := "linux2"
    depsScopes := fun p =>
      if p = "/r/s/DEPS" then
        some ⟨some [("x", .str "http://deps")], []⟩
      else none
    svnInfo := fun _ => []
    pathExists := fun _ => false
    call := fun _ _ => 0
    prevEntries := [] }

/-- C2 witness: every key of a resolved map, here `x`, comes from some
solution's DEPS file. -/
theorem C2_custom_deps_only_override_witness :
    ∃ s, s ∈ clientC2w.solutions ∧
      "x" ∈ dictKeys (GetDefaultSolutionDeps envC2w clientC2w s.name) :=
  C2_custom_deps_only_override envC2w clientC2w
    [("s", some (.str "http://svn/s"))] [("x", .str "http://custom")] "x"
    (by rfl) (by decide)

/-! ### Claim C3 -/

/-- Client for the C3 concrete cases: two solutions whose DEPS files both
declare the dependency `x` (with different URLs in `envC3`, with the same
URL in `envC3w`). -/
def clientC3 : Client :=
  { root_dir := "/r"
    solutions := [⟨"s1", "http://a", none⟩, ⟨"s2", "http://b", none⟩] }

/-- Environment for the C3 counterexample: conflicting DEPS values for
`x`. -/
def envC3 : Env :=
  { platform := "linux2"
    depsScopes := fun p =>
      if p = "/r/s1/DEPS" then some ⟨some [("x", .str "http://x1")], []⟩
      else if p = "/r/s2/DEPS" then some ⟨some [("x", .str "http://x2")], []⟩
      else none
    svnInfo := fun _ => []
    pathExists := fun _ => false
    call := fun _ _ => 0
    prevEntries := [] }

/-- Environment for the equal-values half of C3: both DEPS files bind
`x ↦ http://x`. -/
def envC3w : Env :=
  { platform := "linux2"
    depsScopes := fun p =>
      if p = "/r/s1/DEPS" then some ⟨some [("x", .str "http://x")], []⟩
      else if p = "/r/s2/DEPS" then some ⟨some [("x", .str "http://x")], []⟩
      else none
    svnInfo := fun _ => []
    pathExists := fun _ => false
    call := fun _ _ => 0
    prevEntries := [] }

/-- C3 counterexample: the conflicting sync does raise
`solutions have conflicting versions of dependency "x"`, but only after
both solutions have already been checked out — the trace of `svn`
mutations is not empty, contradicting "no SCM driver mutation is issued
for any entry". -/
theorem C3_conflict_counterexample :
    UpdateAll envC3 clientC3 ⟨false, false, false, none⟩ [] =
      ⟨.error (.gclientError
         "solutions have conflicting versions of dependency \"x\""),
       [⟨["checkout", "http://a", "s1"], "/r"⟩,
        ⟨["checkout", "http://b", "s2"], "/r"⟩],
       ["s1", "s2"], none⟩
    ∧ (UpdateAll envC3 clientC3 ⟨false, false, false, none⟩ []).trace ≠ [] := by
  exact ⟨rfl, by decide⟩

/-- C3 amended: when the resolver raises (in particular the
`ConflictError` naming the conflicting relpath), the sync stops with that
error before issuing any driver operation for a *dependency* — its whole
trace is the solutions-pass trace, and the journal is not rewritten; two
solutions contributing equal values for the same relpath keep the entry
once without error. -/
theorem C3_conflict_aborts_dependency_mutations (env : Env)
    (client : Client) (options : Options) (args : List String)
    (st1 : PassState) (e : PyErr)
    (h1 : (updateSolutions env client.root_dir options args
      client.solutions ⟨[], 0⟩).out = .ok st1)
    (h2 : GetAllDeps env client st1.entries = .error e) :
    UpdateAll env client options args =
      ⟨.error e,
       (updateSolutions env client.root_dir options args
         client.solutions ⟨[], 0⟩).trace,
       (updateSolutions env client.root_dir options args
         client.solutions ⟨[], 0⟩).processed,
       none⟩
    ∧ GetAllDeps envC3w clientC3
        [("s1", some (.str "http://a")), ("s2", some (.str "http://b"))]
      = .ok [("x", .str "http://x")] := by
  constructor
  · simp only [UpdateAll, h1, h2]
  · rfl

/-- C3 witness: on the conflicting client the solutions pass succeeds,
the resolver raises the conflict error, and the sync aborts with exactly
the solutions-pass trace and no journal write. -/
theorem C3_conflict_aborts_dependency_mutations_witness :
    UpdateAll envC3 clientC3 ⟨false, false, false, none⟩ [] =
      ⟨.error (.gclientError
         "solutions have conflicting versions of dependency \"x\""),
       (updateSolutions envC3 clientC3.root_dir ⟨false, false, false, none⟩
         [] clientC3.solutions ⟨[], 0⟩).trace,
       (updateSolutions envC3 clientC3.root_dir ⟨false, false, false, none⟩
         [] clientC3.solutions ⟨[], 0⟩).processed,
       none⟩ :=
  (C3_conflict_aborts_dependency_mutations envC3 clientC3
    ⟨false, false, false, none⟩ []
    ⟨[("s1", some (.str "http://a")), ("s2", some (.str "http://b"))], 0⟩
    (.gclientError "solutions have conflicting versions of dependency \"x\"")
    (by rfl) (by rfl)).1

/-! ### Claim C5 -/

/-- Whether a resolved dependency value is a plain URL string (the
`type(deps[d]) == str` test of the explicit pass). -/
def isStrDep : Option DepValue → Bool
  | some (.str _) => true
  | _ => false

/-- Whether a resolved dependency value is a `From` indirection (the
`type(deps[d]) != str` test of the inherited pass). -/
def isFromDep : Option DepValue → Bool
  | some (.fromModule _) => true
  | _ => false

theorem updateSolutions_processed (env : Env) (root_dir : String)
    (options : Options) (args : List String) :
    ∀ (sols : List Solution) (st st' : PassState),
      (updateSolutions env root_dir options args sols st).out = .ok st' →
      (updateSolutions env root_dir options args sols st).processed
        = sols.map Solution.name := by
  intro sols
  induction sols with
  | nil => intro st st' h; rfl
  | cons s rest ih =>
    intro st st' h
    simp only [updateSolutions] at h ⊢
    by_cases hm : dictMem st.entries s.name = true
    · rw [if_pos hm] at h
      cases h
    · rw [if_neg hm] at h ⊢
      rcases hu : UpdateToURL env s.name
          (.str (pinSolutionURL options.revision s.name s.url))
          root_dir options args with ⟨ru, tru⟩
      rw [hu] at h
      cases ru with
      | error e => simp at h
      | ok r => exact congrArg (List.cons s.name) (ih _ st' h)

theorem updateExplicitDeps_processed (env : Env) (root_dir : String)
    (options : Options) (args : List String) (deps : Dict DepValue) :
    ∀ (l : List String) (st st' : PassState),
      (updateExplicitDeps env root_dir options args deps l st).out
        = .ok st' →
      (updateExplicitDeps env root_dir options args deps l st).processed
        = l.filter (fun d => isStrDep (dictGet deps d)) := by
  intro l
  induction l with
  | nil => intro st st' h; rfl
  | cons d rest ih =>
    intro st st' h
    cases hd : dictGet deps d with
    | none =>
      simp only [updateExplicitDeps, hd] at h ⊢
      rw [List.filter_cons_of_neg (by simp [hd, isStrDep])]
      exact ih st st' h
    | some v =>
      cases v with
      | fromModule m =>
        simp only [updateExplicitDeps, hd] at h ⊢
        rw [List.filter_cons_of_neg (by simp [hd, isStrDep])]
        exact ih st st' h
      | str u =>
        simp only [updateExplicitDeps, hd] at h ⊢
        rw [List.filter_cons_of_pos (by simp [hd, isStrDep])]
        rcases hu : UpdateToURL env d (.str u) root_dir options args
          with ⟨ru, tru⟩
        rw [hu] at h
        cases ru with
        | error e => simp at h
        | ok r => exact congrArg (List.cons d) (ih _ st' h)

theorem updateFromDeps_processed (env : Env) (client : Client)
    (options : Options) (args : List String) (deps : Dict DepValue) :
    ∀ (l : List String) (st st' : PassState),
      (updateFromDeps env client options args deps l st).out = .ok st' →
      (updateFromDeps env client options args deps l st).processed
        = l.filter (fun d => isFromDep (dictGet deps d)) := by
  intro l
  induction l with
  | nil => intro st st' h; rfl
  | cons d rest ih =>
    intro st st' h
    cases hd : dictGet deps d with
    | none =>
      simp only [updateFromDeps, hd] at h ⊢
      rw [List.filter_cons_of_neg (by simp [hd, isFromDep])]
      exact ih st st' h
    | some v =>
      cases v with
      | str u =>
        simp only [updateFromDeps, hd] at h ⊢
        rw [List.filter_cons_of_neg (by simp [hd, isFromDep])]
        exact ih st st' h
      | fromModule m =>
        cases hs : dictGet (GetDefaultSolutionDeps env client m) d with
        | none =>
          simp only [updateFromDeps, hd, hs] at h
          cases h
        | some sv =>
          simp only [updateFromDeps, hd, hs] at h ⊢
          rw [List.filter_cons_of_pos (by simp [hd, isFromDep])]
          rcases hu : UpdateToURL env d sv client.root_dir options args
            with ⟨ru, tru⟩
          rw [hu] at h
          cases ru with
          | error e => simp at h
          | ok r => exact congrArg (List.cons d) (ih _ st' h)

/-- C5 amended: a successful sync processes the solutions first in their
declared order, then the explicit (direct-URL) dependencies in sorted key
order, and then the `From`-inherited dependencies in a second pass, again
in sorted key order — not all dependencies in one single lexicographic
sequence. -/
theorem C5_sync_order (env : Env) (client : Client) (options : Options)
    (args : List String) (st1 : PassState) (deps : Dict DepValue)
    (st2 st3 : PassState)
    (h1 : (updateSolutions env client.root_dir options args
      client.solutions ⟨[], 0⟩).out = .ok st1)
    (h2 : GetAllDeps env client st1.entries = .ok deps)
    (h3 : (updateExplicitDeps env client.root_dir options args deps
      (pySort (dictKeys deps)) st1).out = .ok st2)
    (h4 : (updateFromDeps env client options args deps
      (pySort (dictKeys deps)) st2).out = .ok st3) :
    (UpdateAll env client options args).processed =
      client.solutions.map Solution.name
        ++ (pySort (dictKeys deps)).filter
            (fun d => isStrDep (dictGet deps d))
        ++ (pySort (dictKeys deps)).filter
            (fun d => isFromDep (dictGet deps d))
    ∧ List.Sorted pyLe ((pySort (dictKeys deps)).filter
        (fun d => isStrDep (dictGet deps d)))
    ∧ List.Sorted pyLe ((pySort (dictKeys deps)).filter
        (fun d => isFromDep (dictGet deps d))) := by
  refine ⟨?_, ?_, ?_⟩
  · simp only [UpdateAll, h1, h2, h3, h4]
    rw [updateSolutions_processed env client.root_dir options args
        client.solutions ⟨[], 0⟩ st1 h1,
      updateExplicitDeps_processed env client.root_dir options args deps
        (pySort (dictKeys deps)) st1 st2 h3,
      updateFromDeps_processed env client options args deps
        (pySort (dictKeys deps)) st2 st3 h4]
  · exact (sorted_pySort (dictKeys deps)).filter _
  · exact (sorted_pySort (dictKeys deps)).filter _

/-- Client for the C5 concrete cases: one solution whose DEPS declares an
inherited dependency `a` (via `From("m")`) and an explicit dependency `b`,
with module `m`'s DEPS providing `a`. -/
def clientC5 : Client :=
  { root_dir := "/r"
    solutions := [⟨"s", "http://s", none⟩] }

/-- Environment for the C5 concrete cases. -/
def envC5 : Env :=
  { platform := "linux2"
    depsScopes := fun p =>
      if p = "/r/s/DEPS" then
        some ⟨some [("a", .fromModule "m"), ("b", .str "http://b")], []⟩
      else if p = "/r/m/DEPS" then
        some ⟨some [("a", .str "http://a")], []⟩
      else none
    svnInfo := fun _ => []
    pathExists := fun _ => false
    call := fun _ _ => 0
    prevEntries := [] }

/-- C5 counterexample: `a` sorts before `b`, yet the driver operation for
`b` (an explicit dependency) is issued before the one for `a` (a
`From`-inherited dependency), so dependencies are not materialized in one
single lexicographic sequence. -/
theorem C5_single_order_counterexample :
    (UpdateAll envC5 clientC5 ⟨false, false, false, none⟩ []).trace =
      [⟨["checkout", "http://s", "s"], "/r"⟩,
       ⟨["checkout", "http://b", "b"], "/r"⟩,
       ⟨["checkout", "http://a", "a"], "/r"⟩]
    ∧ pyStrLe "a" "b" = true ∧ "a" ≠ "b" := by
  exact ⟨rfl, rfl, by decide⟩

/-- C5 witness: on the concrete client the processed order is the solution
`s`, then the explicit dependency `b`, then the inherited dependency `a`,
with both dependency segments sorted. -/
theorem C5_sync_order_witness :
    (UpdateAll envC5 clientC5 ⟨false, false, false, none⟩ []).processed =
      clientC5.solutions.map Solution.name
        ++ (pySort (dictKeys [("a", DepValue.fromModule "m"),
              ("b", DepValue.str "http://b")])).filter
            (fun d => isStrDep (dictGet [("a", DepValue.fromModule "m"),
              ("b", DepValue.str "http://b")] d))
        ++ (pySort (dictKeys [("a", DepValue.fromModule "m"),
              ("b", DepValue.str "http://b")])).filter
            (fun d => isFromDep (dictGet [("a", DepValue.fromModule "m"),
              ("b", DepValue.str "http://b")] d)) :=
  (C5_sync_order envC5 clientC5 ⟨false, false, false, none⟩ []
    ⟨[("s", some (.str "http://s"))], 0⟩
    [("a", .fromModule "m"), ("b", .str "http://b")]
    ⟨[("s", some (.str "http://s")), ("b", some (.str "http://b"))], 0⟩
    ⟨[("s", some (.str "http://s")), ("b", some (.str "http://b")),
      ("a", some (.str "http://a"))], 0⟩
    (by rfl) (by rfl) (by rfl) (by rfl)).1

/-! ### Claim C6 -/

/-- C6 amended: re-running a sync is free of mutating driver calls only
for entries whose target URL carries an explicit `@revision` that the
working copy already has (the C7 no-op case); an entry whose target URL
has no `@revision` gets an `svn update` reissued on every sync even when
nothing changed and `force` is unset. -/
theorem C6_resync_reissues_update (env : Env) (relpath root_dir u : String)
    (vb rl : Bool) (rv : Option String) (args : List String)
    (hgit : env.pathExists (pathJoin3 root_dir relpath ".git") = false)
    (hex : env.pathExists (pathJoin root_dir relpath) = true)
    (hsplit : pySplit u '@' = [u])
    (hurl : dictGet (env.svnInfo relpath) "URL" = some u) :
    (UpdateToURL env relpath (.str u) root_dir ⟨vb, false, rl, rv⟩ args).2 =
      [⟨["update"] ++ args, pathJoin root_dir relpath⟩] := by
  simp only [UpdateToURL, hgit, hex, hsplit, hurl]
  simp only [updateRelocate, updateOpSelect]
  simp [RunSVN_trace]

/-- Client for the C6 counterexample: one solution with an unpinned URL
and no DEPS file. -/
def clientC6 : Client :=
  { root_dir := "/r"
    solutions := [⟨"s", "http://svn/s", none⟩] }

/-- Environment for the first C6 sync: a fresh tree. -/
def envC6a : Env :=
  { platform := "linux2"
    depsScopes := fun _ => none
    svnInfo := fun _ => []
    pathExists := fun _ => false
    call := fun _ _ => 0
    prevEntries := [] }

/-- Environment after the first C6 sync succeeded and nothing external
changed: the working copy exists at the target URL. -/
def envC6b : Env :=
  { platform := "linux2"
    depsScopes := fun _ => none
    svnInfo := fun p =>
      if p = "s" then
        [("URL", "http://svn/s"), ("Repository Root", "http://svn"),
         ("Repository UUID", "uuid"), ("Revision", "100")]
      else []
    pathExists := fun p => p = "/r/s"
    call := fun _ _ => 0
    prevEntries := ["s"] }

/-- C6 counterexample: the first sync of an unpinned solution succeeds
with one checkout; re-running it on the unchanged resulting state issues a
mutating `svn update` call, so the round trip is not free of mutating
driver calls. -/
theorem C6_idempotence_counterexample :
    UpdateAll envC6a clientC6 ⟨false, false, false, none⟩ [] =
      ⟨.ok 0, [⟨["checkout", "http://svn/s", "s"], "/r"⟩], ["s"], some ["s"]⟩
    ∧ (UpdateAll envC6b clientC6 ⟨false, false, false, none⟩ []).trace =
      [⟨["update"], "/r/s"⟩]
    ∧ (UpdateAll envC6b clientC6 ⟨false, false, false, none⟩ []).outcome =
      .ok 0 := by
  exact ⟨rfl, rfl, rfl⟩

/-- C6 witness: the unpinned working copy of `http://svn/s` gets an
`svn update` reissued by a second sync. -/
theorem C6_resync_reissues_update_witness :
    (UpdateToURL envC6b "s" (.str "http://svn/s") "/r"
      ⟨false, false, false, none⟩ []).2 = [⟨["update"], "/r/s"⟩] :=
  C6_resync_reissues_update envC6b "s" "/r" "http://svn/s" false false
    none [] (by decide) (by decide) (by decide) (by decide)

/-! ### Claim C1 -/

/-- Client for the C1 failing input: two solutions on a fresh tree. -/
def clientC1 : Client :=
  { root_dir := "/r"
    solutions := [⟨"s1", "http://a", none⟩, ⟨"s2", "http://b", none⟩] }

/-- Environment for the C1 failing input: the checkout of `s1` exits with
code 1; every other command succeeds. -/
def envC1 : Env :=
  { platform := "linux2"
    depsScopes := fun _ => none
    svnInfo := fun _ => []
    pathExists := fun _ => false
    call := fun c _ => if c = ["svn", "checkout", "http://a", "s1"] then 1 else 0
    prevEntries := [] }

/-- C1 evaluation at the failing input: when the `svn checkout` of `s1`
exits nonzero, `RunSVN` raises `Error("failed to run command: ...")` and
the whole sync aborts — `s2` is never processed, the entries journal is
not rewritten, and the raised error (not an aggregated exit code) escapes,
even though `UpdateAll` carries first-nonzero aggregation logic
(`if r and result == 0`) that its own unit test exercises with a mocked
driver. -/
theorem C1_driver_error_aborts_sync :
    UpdateAll envC1 clientC1 ⟨false, false, false, none⟩ [] =
      ⟨.error (.gclientError "failed to run command: svn checkout http://a s1"),
       [⟨["checkout", "http://a", "s1"], "/r"⟩], ["s1"], none⟩
    ∧ aggregate 0 (some 123) = 123 ∧ aggregate 789 (some 678) = 789 := by
  exact ⟨rfl, rfl, rfl⟩

end Gclient
